import Mathlib

/-!
Shallow embedding of src/OrderBook.cpp.

The source is a single C++ class OrderBook maintaining a two-sided limit
order book:
  - bids : std::map<double, Limit, std::greater<double>>  (price descending)
  - asks : std::map<double, Limit>                        (price ascending)
  - order_storage : std::list<Order>                      (the arena)
  - order_lookup : std::unordered_map<uint64_t, iterator> (the index)
  - next_order_id : uint64_t, starting at 1

Modelling choices:
  - price (C++ double) is modelled as ℚ: every price the program's tests use
    (100.0, 99.0, 100.5, ...) is rational, prices are only compared and used
    as ordered-map keys, and no float rounding occurs in the source for the
    operations under study.  Non-finite doubles fall outside the model.
  - uint64_t is modelled as Nat with explicit wrapping (mod 2^64) at every
    C++ arithmetic operation that can wrap (w64add / w64sub below).
  - std::map is modelled as an association list kept sorted by the map's
    comparator; insertLevel mirrors operator[]-then-update (create the key at
    its ordered position if absent, else update in place), eraseLevel mirrors
    map::erase.
  - order_storage and order_lookup are merged into one association list
    sorted by order id.  The C++ storage list's internal order is never
    observed (nothing in the source iterates order_storage) and
    std::unordered_map has no observable order, so the id-sorted canonical
    form is extensionally faithful: newOrder's emplace_back + lookup insert
    becomes an ordered insert, cancelOrder's two erases become one erase,
    and in-place field mutation through the stored iterator becomes an
    in-place replace at the id.
  - Order.timestamp_ns is omitted: the source writes it once in newOrder and
    never reads it anywhere (queue priority comes from list position only).
  - Order.position_in_limit (the iterator back-reference used for O(1) list
    erasure) is represented by the order's id inside the Level's member
    list: `limit.orders.erase(order_it->position_in_limit)` erases exactly
    the node holding that order, modelled as erasing the order's id.
-/

namespace LOB

/-- 2^64, the modulus of the C++ uint64_t arithmetic. -/
def W : Nat := 18446744073709551616

/-- Truncation to uint64_t range. -/
def w64 (a : Nat) : Nat := a % W

/-- uint64_t addition (wraps). -/
def w64add (a b : Nat) : Nat := (a + b) % W

/-- uint64_t subtraction (wraps): models `a - b` in uint64 arithmetic,
also covering the C++ pattern `total += (int64_t)(new - old)` whose net
effect on uint64 values is addition of `(new - old) mod 2^64`. -/
def w64sub (a b : Nat) : Nat := (a + W - b % W) % W

abbrev OrderId := Nat
abbrev Price := ℚ

/-- One resting order (struct Order in the source; see header comment for
the omitted timestamp_ns and position_in_limit fields). -/
structure Order where
  is_buy : Bool
  price : Price
  quantity : Nat
  deriving DecidableEq

/-- One price level (struct Limit): aggregate quantity plus the member
queue in arrival order, front = earliest. -/
structure Limit where
  total_quantity : Nat
  orders : List OrderId
  deriving DecidableEq

/-- Snapshot/BBO element (struct PriceLevel). -/
structure PriceLevel where
  price : Price
  total_quantity : Nat
  deriving DecidableEq

/-- Comparator of the bid table: std::greater<double>, so the table is
sorted by descending price (`bidLT p q` = p comes strictly before q). -/
def bidLT (p q : Price) : Bool := decide (q < p)

/-- Comparator of the ask table: std::less<double>, ascending price. -/
def askLT (p q : Price) : Bool := decide (p < q)

/-- std::map::find on the price table. -/
def findLevel : List (Price × Limit) → Price → Option Limit
  | [], _ => none
  | (q, L) :: rest, p => if p = q then some L else findLevel rest p

/-- Insert-or-replace at a price key, keeping the table sorted by the side's
comparator: models `book_side[price] = ...` (operator[] creates the entry at
its ordered position when absent, otherwise the entry is updated in place). -/
def insertLevel (lt : Price → Price → Bool) :
    List (Price × Limit) → Price → Limit → List (Price × Limit)
  | [], p, L => [(p, L)]
  | (q, M) :: rest, p, L =>
    if p = q then (p, L) :: rest
    else if lt p q then (p, L) :: (q, M) :: rest
    else (q, M) :: insertLevel lt rest p L

/-- std::map::erase by key. -/
def eraseLevel : List (Price × Limit) → Price → List (Price × Limit)
  | [], _ => []
  | (q, M) :: rest, p => if p = q then rest else (q, M) :: eraseLevel rest p

/-- order_lookup find (merged arena/index association list, see header). -/
def findOrder : List (OrderId × Order) → OrderId → Option Order
  | [], _ => none
  | (k, v) :: rest, id => if id = k then some v else findOrder rest id

/-- Insert-or-replace at an order id, keeping the arena sorted by id:
models registering a fresh order (order_storage.emplace_back +
order_lookup[id] = it) as well as in-place field mutation through the
stored iterator (`order_it->quantity = ...`). -/
def insertOrderSorted : List (OrderId × Order) → OrderId → Order → List (OrderId × Order)
  | [], id, o => [(id, o)]
  | (k, v) :: rest, id, o =>
    if id = k then (id, o) :: rest
    else if id < k then (id, o) :: (k, v) :: rest
    else (k, v) :: insertOrderSorted rest id o

/-- Erase an order from the arena/index (order_lookup.erase +
order_storage.erase). -/
def eraseOrder : List (OrderId × Order) → OrderId → List (OrderId × Order)
  | [], _ => []
  | (k, v) :: rest, id => if id = k then rest else (k, v) :: eraseOrder rest id

/-- The whole book state (class OrderBook's private members). -/
structure OrderBook where
  bids : List (Price × Limit)
  asks : List (Price × Limit)
  orders : List (OrderId × Order)
  next_order_id : OrderId
  deriving DecidableEq

/-- The book the C++ default constructor builds. -/
def emptyBook : OrderBook := ⟨[], [], [], 1⟩

/-- index lookup on the book. -/
def lookupOrder (s : OrderBook) (id : OrderId) : Option Order :=
  findOrder s.orders id

/-- One side's table, selected the way the source's `if (is_buy)` does. -/
def tableOf (s : OrderBook) (b : Bool) : List (Price × Limit) :=
  if b then s.bids else s.asks

/-- add_order_internal: `Limit& limit = book_side[price];` (default-creates
the level when absent), `limit.orders.push_back(...)`,
`limit.total_quantity += order_it->quantity`. -/
def add_order_internal (lt : Price → Price → Bool) (t : List (Price × Limit))
    (id : OrderId) (o : Order) : List (Price × Limit) :=
  let L := (findLevel t o.price).getD ⟨0, []⟩
  insertLevel lt t o.price ⟨w64add L.total_quantity o.quantity, L.orders ++ [id]⟩

/-- remove_order_internal: find the level at the order's price (skip if
absent), `total_quantity -= quantity`, erase the order's node from the
member list, and erase the level from the map when total_quantity == 0. -/
def remove_order_internal (lt : Price → Price → Bool) (t : List (Price × Limit))
    (id : OrderId) (o : Order) : List (Price × Limit) :=
  match findLevel t o.price with
  | none => t
  | some L =>
    let t2 := w64sub L.total_quantity o.quantity
    if t2 = 0 then eraseLevel t o.price
    else insertLevel lt t o.price ⟨t2, L.orders.erase id⟩

/-- newOrder(is_buy, price, quantity): allocate the order under the next id,
register it, add it to the matching side, return the id. -/
def newOrder (s : OrderBook) (is_buy : Bool) (price : Price) (quantity : Nat) :
    OrderId × OrderBook :=
  let current_id := s.next_order_id
  let o : Order := ⟨is_buy, price, w64 quantity⟩
  let s1 : OrderBook :=
    { s with orders := insertOrderSorted s.orders current_id o
             next_order_id := w64add current_id 1 }
  let s2 : OrderBook :=
    if is_buy then { s1 with bids := add_order_internal bidLT s1.bids current_id o }
    else { s1 with asks := add_order_internal askLT s1.asks current_id o }
  (current_id, s2)

/-- cancelOrder(order_id): not-found returns false untouched; otherwise
remove from the order's side, erase from index and arena, return true. -/
def cancelOrder (s : OrderBook) (order_id : OrderId) : Bool × OrderBook :=
  match lookupOrder s order_id with
  | none => (false, s)
  | some o =>
    let s1 : OrderBook :=
      if o.is_buy then { s with bids := remove_order_internal bidLT s.bids order_id o }
      else { s with asks := remove_order_internal askLT s.asks order_id o }
    (true, { s1 with orders := eraseOrder s1.orders order_id })

/-- `book_side[price].total_quantity += delta` from amendOrder's same-price
branch: operator[] default-creates the level when absent (empty member
list), then the total is bumped; the member list is not touched. -/
def bumpTotal (lt : Price → Price → Bool) (t : List (Price × Limit))
    (p : Price) (delta : Nat) : List (Price × Limit) :=
  let L := (findLevel t p).getD ⟨0, []⟩
  insertLevel lt t p ⟨w64add L.total_quantity delta, L.orders⟩

/-- amendOrder(order_id, new_price, new_quantity): not-found returns false;
price change = remove at the old price, mutate price and quantity, add at
the new price (back of that queue); same price = mutate quantity and bump
the level's total by the signed delta. -/
def amendOrder (s : OrderBook) (order_id : OrderId) (new_price : Price)
    (new_quantity : Nat) : Bool × OrderBook :=
  match lookupOrder s order_id with
  | none => (false, s)
  | some o =>
    if o.price ≠ new_price then
      let s1 : OrderBook :=
        if o.is_buy then { s with bids := remove_order_internal bidLT s.bids order_id o }
        else { s with asks := remove_order_internal askLT s.asks order_id o }
      let o2 : Order := { o with price := new_price, quantity := w64 new_quantity }
      let s2 : OrderBook := { s1 with orders := insertOrderSorted s1.orders order_id o2 }
      let s3 : OrderBook :=
        if o.is_buy then { s2 with bids := add_order_internal bidLT s2.bids order_id o2 }
        else { s2 with asks := add_order_internal askLT s2.asks order_id o2 }
      (true, s3)
    else
      let delta := w64sub (w64 new_quantity) o.quantity
      let o2 : Order := { o with quantity := w64 new_quantity }
      let s1 : OrderBook := { s with orders := insertOrderSorted s.orders order_id o2 }
      let s2 : OrderBook :=
        if o.is_buy then { s1 with bids := bumpTotal bidLT s1.bids o.price delta }
        else { s1 with asks := bumpTotal askLT s1.asks o.price delta }
      (true, s2)

/-- getSnapshot(depth): the first `depth` levels of each side as
(price, total_quantity) pairs, best first. -/
def getSnapshot (s : OrderBook) (depth : Nat) : List PriceLevel × List PriceLevel :=
  ((s.bids.take depth).map (fun e => ⟨e.1, e.2.total_quantity⟩),
   (s.asks.take depth).map (fun e => ⟨e.1, e.2.total_quantity⟩))

/-- getBBO(): first entry of each table, or the {0, 0} sentinel the source
initialises best_bid/best_ask with when a side is empty. -/
def getBBO (s : OrderBook) : PriceLevel × PriceLevel :=
  (match s.bids with
   | [] => ⟨0, 0⟩
   | (p, L) :: _ => ⟨p, L.total_quantity⟩,
   match s.asks with
   | [] => ⟨0, 0⟩
   | (p, L) :: _ => ⟨p, L.total_quantity⟩)

/-- The sum of `quantity` over the orders in a Level's member list, read
through the book's index (missing ids contribute 0). -/
def memberSum (s : OrderBook) (L : Limit) : Nat :=
  (L.orders.map (fun i => ((lookupOrder s i).map Order.quantity).getD 0)).sum

/-- The arena/index association list has strictly increasing ids.  This
holds for every state the class can reach (ids are handed out by the
increasing next_order_id counter) and is the well-formedness assumption a
few theorems need about an arbitrary starting state. -/
abbrev idsSorted (l : List (OrderId × Order)) : Prop :=
  l.Pairwise (fun a b => a.1 < b.1)

/-- The spec's reading of a price-changing amend: cancelOrder on the id,
then re-insert an order with the same id, the original side and the new
price and quantity — the newOrder insertion path with the id preserved and
next_order_id untouched. -/
def cancelThenReinsertSameId (s : OrderBook) (id : OrderId) (np : Price)
    (nq : Nat) : OrderBook :=
  match lookupOrder s id with
  | none => s
  | some o =>
    let s1 := (cancelOrder s id).2
    let o2 : Order := ⟨o.is_buy, np, w64 nq⟩
    let s2 : OrderBook := { s1 with orders := insertOrderSorted s1.orders id o2 }
    if o.is_buy then { s2 with bids := add_order_internal bidLT s2.bids id o2 }
    else { s2 with asks := add_order_internal askLT s2.asks id o2 }

example : (newOrder emptyBook true 100 10).1 = 1 := by decide
example :
    (newOrder (newOrder emptyBook true 100 10).2 true 100 5).2.bids =
      [(100, ⟨15, [1, 2]⟩)] := by decide
example : getBBO (newOrder emptyBook true 100 10).2 = (⟨100, 10⟩, ⟨0, 0⟩) := by decide
example :
    (cancelOrder (newOrder emptyBook true 100 10).2 1).2 =
      { emptyBook with next_order_id := 2 } := by decide

theorem findOrder_insertOrderSorted_self (l : List (OrderId × Order))
    (id : OrderId) (o : Order) :
    findOrder (insertOrderSorted l id o) id = some o := by
  induction l with
  | nil => simp [insertOrderSorted, findOrder]
  | cons kv rest ih =>
    obtain ⟨k, v⟩ := kv
    by_cases h : id = k
    · simp [insertOrderSorted, h, findOrder]
    · by_cases h2 : id < k
      · simp [insertOrderSorted, h, h2, findOrder]
      · simp [insertOrderSorted, h, h2, findOrder, ih]

theorem findOrder_insertOrderSorted_ne (l : List (OrderId × Order))
    (id : OrderId) (o : Order) (j : OrderId) (hj : j ≠ id) :
    findOrder (insertOrderSorted l id o) j = findOrder l j := by
  induction l with
  | nil => simp [insertOrderSorted, findOrder, hj]
  | cons kv rest ih =>
    obtain ⟨k, v⟩ := kv
    by_cases h : id = k
    · subst h
      simp [insertOrderSorted, findOrder, hj]
    · by_cases h2 : id < k
      · simp [insertOrderSorted, h, h2, findOrder, hj]
      · by_cases h3 : j = k
        · simp [insertOrderSorted, h, h2, findOrder, h3]
        · simp [insertOrderSorted, h, h2, findOrder, h3, ih]

theorem findOrder_some_mem (l : List (OrderId × Order)) (id : OrderId)
    (o : Order) (h : findOrder l id = some o) : (id, o) ∈ l := by
  induction l with
  | nil => simp [findOrder] at h
  | cons kv rest ih =>
    obtain ⟨k, v⟩ := kv
    by_cases hk : id = k
    · subst hk
      simp [findOrder] at h
      simp [h]
    · simp [findOrder, hk] at h
      exact List.mem_cons_of_mem _ (ih h)

theorem insertOrderSorted_all_lt (l : List (OrderId × Order)) (id : OrderId)
    (o : Order) (h : ∀ e ∈ l, id < e.1) :
    insertOrderSorted l id o = (id, o) :: l := by
  cases l with
  | nil => simp [insertOrderSorted]
  | cons kv rest =>
    obtain ⟨k, v⟩ := kv
    have hk : id < k := h (k, v) (List.mem_cons_self _ _)
    simp [insertOrderSorted, Nat.ne_of_lt hk, hk]

theorem insertOrderSorted_eraseOrder (l : List (OrderId × Order))
    (id : OrderId) (o o2 : Order) (hs : idsSorted l)
    (h : findOrder l id = some o) :
    insertOrderSorted (eraseOrder l id) id o2 = insertOrderSorted l id o2 := by
  induction l with
  | nil => simp [findOrder] at h
  | cons kv rest ih =>
    obtain ⟨k, v⟩ := kv
    have hs : (∀ e ∈ rest, k < e.1) ∧ idsSorted rest := List.pairwise_cons.mp hs
    by_cases hk : id = k
    · subst hk
      rw [eraseOrder, if_pos rfl,
        insertOrderSorted_all_lt rest id o2 hs.1,
        insertOrderSorted, if_pos rfl]
    · rw [findOrder, if_neg hk] at h
      have hgt : k < id := hs.1 (id, o) (findOrder_some_mem rest id o h)
      have hnlt : ¬ id < k := Nat.not_lt.mpr (Nat.le_of_lt hgt)
      rw [eraseOrder, if_neg hk, insertOrderSorted, if_neg hk, if_neg hnlt,
        insertOrderSorted, if_neg hk, if_neg hnlt, ih hs.2 h]

theorem findLevel_insertLevel_self (lt : Price → Price → Bool)
    (t : List (Price × Limit)) (p : Price) (L : Limit) :
    findLevel (insertLevel lt t p L) p = some L := by
  induction t with
  | nil => simp [insertLevel, findLevel]
  | cons e rest ih =>
    obtain ⟨q, M⟩ := e
    by_cases h : p = q
    · simp [insertLevel, h, findLevel]
    · by_cases h2 : lt p q
      · simp [insertLevel, h, h2, findLevel]
      · simp [insertLevel, h, h2, findLevel, ih]

theorem findLevel_insertLevel_ne (lt : Price → Price → Bool)
    (t : List (Price × Limit)) (p : Price) (L : Limit) (p2 : Price)
    (hp : p2 ≠ p) :
    findLevel (insertLevel lt t p L) p2 = findLevel t p2 := by
  induction t with
  | nil => simp [insertLevel, findLevel, hp]
  | cons e rest ih =>
    obtain ⟨q, M⟩ := e
    by_cases h : p = q
    · subst h
      simp [insertLevel, findLevel, hp]
    · by_cases h2 : lt p q
      · simp [insertLevel, h, h2, findLevel, hp]
      · by_cases h3 : p2 = q
        · simp [insertLevel, h, h2, findLevel, h3]
        · simp [insertLevel, h, h2, findLevel, h3, ih]

/-- Reachable scenario state: newOrder(Buy, 100, 0) on the empty book;
order 1 has quantity 0 and the bid Level at 100 has total_quantity 0. -/
def book100z : OrderBook := (newOrder emptyBook true 100 0).2

/-- book100z after newOrder(Buy, 100, 5), which gets id 2. -/
def book100z5 : OrderBook := (newOrder book100z true 100 5).2

/-- book100z5 after cancelOrder 2: the total at 100 drops to 0, so the
source erases the whole Level although order 1 still rests in it. -/
def book100zCancel2 : OrderBook := (cancelOrder book100z5 2).2

/-- book100zCancel2 after amendOrder(1, 100, 7): the same-price branch's
`bids[price].total_quantity += delta` re-creates the Level at 100 through
operator[], with total_quantity 7 and an empty member list. -/
def book100zResurrect : OrderBook := (amendOrder book100zCancel2 1 100 7).2

/-- Reachable scenario state: newOrder(Buy, 0, 0) on the empty book: a real
bid Level at price 0 with total quantity 0. -/
def bookP0 : OrderBook := (newOrder emptyBook true 0 0).2

theorem w64_eq_of_lt {a : Nat} (h : a < W) : w64 a = a :=
  Nat.mod_eq_of_lt h

theorem w64add_w64sub_exact (t o q : Nat) (h1 : o ≤ t) (h2 : t < W)
    (h3 : q < W) (h4 : t - o + q < W) :
    w64add t (w64sub (w64 q) o) = t - o + q := by
  unfold w64add w64sub w64 W at *
  omega

/-- C1: the quantity-sum invariant is violated on a reachable book state.
After newOrder(Buy, 100, 0) = id 1, newOrder(Buy, 100, 5) = id 2,
cancelOrder 2 (which erases the Level at 100 because its total hit 0,
stranding live order 1), amendOrder(1, 100, 7) re-creates the bid Level at
100 with total_quantity 7 and an empty member list, while order 1 is still
live with quantity 7: the Level's total (7) differs from the sum of the
quantities over its members (0). -/
theorem c1_quantity_sum_broken :
    findLevel book100zResurrect.bids 100 = some ⟨7, []⟩ ∧
    memberSum book100zResurrect ⟨7, []⟩ = 0 ∧
    lookupOrder book100zResurrect 1 = some ⟨true, 100, 7⟩ := by
  decide

/-- C2: the level-existence invariant is violated on a reachable book
state: newOrder(Buy, 100, 0) on the empty book leaves a Level at 100 in
the bid table whose total_quantity is 0, so a level with non-positive
total is present in a side's table. -/
theorem c2_zero_quantity_level_present :
    findLevel book100z.bids 100 = some ⟨0, [1]⟩ := by
  decide

/-- C3: cancelOrder and amendOrder on an order id absent from the index
return false and leave the entire book state (both tables, arena, index,
next-id counter) exactly unchanged. -/
theorem c3_not_found_unchanged (s : OrderBook) (id : OrderId) (p : Price)
    (q : Nat) (h : lookupOrder s id = none) :
    cancelOrder s id = (false, s) ∧ amendOrder s id p q = (false, s) := by
  constructor
  · simp [cancelOrder, h]
  · simp [amendOrder, h]

/-- C3 witness: cancelling/amending the never-issued id 999999 on the
empty book returns false and changes nothing. -/
theorem c3_not_found_unchanged_w :
    lookupOrder emptyBook 999999 = none ∧
    (cancelOrder emptyBook 999999 = (false, emptyBook) ∧
      amendOrder emptyBook 999999 50 5 = (false, emptyBook)) :=
  ⟨by decide, c3_not_found_unchanged emptyBook 999999 50 5 (by decide)⟩

/-- C6: the insert/cancel round-trip fails on a reachable book state.
Starting from the book holding only the zero-quantity order 1 at 100 (bid
Level(100) with total 0), newOrder(Buy, 100, 5) returns id 2 and an
immediate cancelOrder 2 returns true but erases the whole Level at 100 —
order 1 still rested there — so the levels and the BBO before the
newOrder are not restored. -/
theorem c6_roundtrip_broken :
    (newOrder book100z true 100 5).1 = 2 ∧
    (cancelOrder book100z5 2).1 = true ∧
    book100z.bids = [(100, ⟨0, [1]⟩)] ∧
    book100zCancel2.bids = [] ∧
    getBBO book100z = (⟨100, 0⟩, ⟨0, 0⟩) ∧
    getBBO book100zCancel2 = (⟨0, 0⟩, ⟨0, 0⟩) := by
  decide

/-- C7 counterexample: getBBO renders an empty side as the sentinel
PriceLevel (0, 0), and that sentinel is exactly what a genuine bid Level
at price 0 with total quantity 0 (reachable via newOrder(Buy, 0, 0))
produces, so the two states are indistinguishable through bbo. -/
theorem c7_sentinel_conflation :
    getBBO emptyBook = (⟨0, 0⟩, ⟨0, 0⟩) ∧
    bookP0.bids = [(0, ⟨0, [1]⟩)] ∧
    getBBO bookP0 = (⟨0, 0⟩, ⟨0, 0⟩) := by
  decide

/-- C7 amended: getBBO returns, for each side, the first (best) level of
that side's table with its total quantity when the side is non-empty, and
the sentinel PriceLevel (price 0, quantity 0) — not a distinguished empty
marker — when the side has no resting orders. -/
theorem c7_bbo_first_or_sentinel (s : OrderBook) :
    getBBO s =
      (((s.bids.head?).map (fun e => PriceLevel.mk e.1 e.2.total_quantity)).getD ⟨0, 0⟩,
       ((s.asks.head?).map (fun e => PriceLevel.mk e.1 e.2.total_quantity)).getD ⟨0, 0⟩) := by
  obtain ⟨bids, asks, os, n⟩ := s
  cases bids <;> cases asks <;> rfl

/-- C8 counterexample: negative prices are not rejected by either
operation: on the empty book newOrder(Buy, -1, 5) returns id 1 and mutates
the book, leaving a bid Level at price -1 holding the new order, and
amendOrder(1, -2, 5) on the resulting book returns true and moves the
order to a bid Level at price -2. -/
theorem c8_negative_price_accepted :
    newOrder emptyBook true (-1) 5 =
      (1, ⟨[(-1, ⟨5, [1]⟩)], [], [(1, ⟨true, -1, 5⟩)], 2⟩) ∧
    amendOrder (newOrder emptyBook true (-1) 5).2 1 (-2) 5 =
      (true, ⟨[(-2, ⟨5, [1]⟩)], [], [(1, ⟨true, -2, 5⟩)], 2⟩) := by
  decide

/-- C8 amended: no argument validation is performed on either operation:
newOrder accepts a negative price like any other, returning the next id,
registering the order in the index and appending it to the member list of
the (possibly new) Level at that negative price; amendOrder to a negative
price on any live order returns true and sets the order's price (and
quantity) to the negative value.  Negative quantities are not
representable (quantity is unsigned); non-finite prices fall outside the
rational price model. -/
theorem c8_no_validation (s : OrderBook) (b : Bool) (p : Price) (q : Nat)
    (hp : p < 0) :
    ((newOrder s b p q).1 = s.next_order_id ∧
      lookupOrder (newOrder s b p q).2 s.next_order_id = some ⟨b, p, w64 q⟩ ∧
      findLevel (tableOf (newOrder s b p q).2 b) p =
        some ⟨w64add ((findLevel (tableOf s b) p).getD ⟨0, []⟩).total_quantity (w64 q),
              ((findLevel (tableOf s b) p).getD ⟨0, []⟩).orders ++ [s.next_order_id]⟩) ∧
    (∀ id o, lookupOrder s id = some o →
      (amendOrder s id p q).1 = true ∧
      lookupOrder (amendOrder s id p q).2 id = some ⟨o.is_buy, p, w64 q⟩) := by
  refine ⟨⟨rfl, ?_, ?_⟩, ?_⟩
  · cases b <;>
      simp [newOrder, lookupOrder, findOrder_insertOrderSorted_self]
  · cases b <;>
      simp [newOrder, tableOf, add_order_internal, findLevel_insertLevel_self]
  · intro id o ho
    by_cases hne : o.price ≠ p
    · simp only [amendOrder, ho]
      rw [if_pos hne]
      cases hb : o.is_buy <;>
        simp [lookupOrder, findOrder_insertOrderSorted_self]
    · have hpe : o.price = p := not_not.mp hne
      simp only [amendOrder, ho]
      rw [if_neg hne, ← hpe]
      cases hb : o.is_buy <;>
        simp [lookupOrder, findOrder_insertOrderSorted_self]

/-- C8 amended witness: on the book holding order 1 (Buy, 5 @ -1),
newOrder(Buy, -2, 7) is accepted at the negative price -2 and
amendOrder(1, -2, 7) succeeds and moves order 1 to price -2. -/
theorem c8_no_validation_w :
    ((-2 : Price) < 0) ∧
    ((newOrder (newOrder emptyBook true (-1) 5).2 true (-2) 7).1 =
        (newOrder emptyBook true (-1) 5).2.next_order_id ∧
      lookupOrder (newOrder (newOrder emptyBook true (-1) 5).2 true (-2) 7).2
          (newOrder emptyBook true (-1) 5).2.next_order_id = some ⟨true, -2, w64 7⟩ ∧
      findLevel (tableOf (newOrder (newOrder emptyBook true (-1) 5).2 true (-2) 7).2 true) (-2) =
        some ⟨w64add
                ((findLevel (tableOf (newOrder emptyBook true (-1) 5).2 true) (-2)).getD
                  ⟨0, []⟩).total_quantity (w64 7),
              ((findLevel (tableOf (newOrder emptyBook true (-1) 5).2 true) (-2)).getD
                  ⟨0, []⟩).orders ++
                [(newOrder emptyBook true (-1) 5).2.next_order_id]⟩) ∧
    (lookupOrder (newOrder emptyBook true (-1) 5).2 1 = some ⟨true, -1, 5⟩ ∧
      (amendOrder (newOrder emptyBook true (-1) 5).2 1 (-2) 7).1 = true ∧
      lookupOrder (amendOrder (newOrder emptyBook true (-1) 5).2 1 (-2) 7).2 1 =
        some ⟨true, -2, w64 7⟩) :=
  have h := c8_no_validation (newOrder emptyBook true (-1) 5).2 true (-2) 7 (by decide)
  ⟨by decide, ⟨h.1.1, h.1.2.1, h.1.2.2⟩,
   by decide,
   (h.2 1 ⟨true, -1, 5⟩ (by decide)).1,
   (h.2 1 ⟨true, -1, 5⟩ (by decide)).2⟩

/-- C9: newOrder never touches the opposite side and never matches,
reduces or removes an existing order: the table of the side opposite the
new order is exactly unchanged (whatever the price, crossing or not), and
every previously issued id still resolves to the same order record. -/
theorem c9_no_crossing (s : OrderBook) (b : Bool) (p : Price) (q : Nat) :
    tableOf (newOrder s b p q).2 (!b) = tableOf s (!b) ∧
    ∀ j, j ≠ s.next_order_id →
      lookupOrder (newOrder s b p q).2 j = lookupOrder s j := by
  constructor
  · cases b <;> simp [newOrder, tableOf]
  · intro j hj
    cases b <;>
      simp [newOrder, lookupOrder, findOrder_insertOrderSorted_ne _ _ _ _ hj]

/-- C9 witness: with an ask resting at 100, a crossing buy at 101 leaves
the ask table unchanged and order 1 untouched. -/
theorem c9_no_crossing_w :
    tableOf (newOrder (newOrder emptyBook false 100 5).2 true 101 7).2 false =
      tableOf (newOrder emptyBook false 100 5).2 false ∧
    ((1 : OrderId) ≠ (newOrder emptyBook false 100 5).2.next_order_id ∧
      lookupOrder (newOrder (newOrder emptyBook false 100 5).2 true 101 7).2 1 =
        lookupOrder (newOrder emptyBook false 100 5).2 1) :=
  ⟨(c9_no_crossing (newOrder emptyBook false 100 5).2 true 101 7).1,
   by decide,
   (c9_no_crossing (newOrder emptyBook false 100 5).2 true 101 7).2 1 (by decide)⟩

/-- C10: newOrder with quantity 0 succeeds: it returns the next fresh id,
registers the zero-quantity order in the index, appends it to its price
Level's member list while contributing 0 to the total, leaves the
opposite side untouched; concretely, after newOrder(Buy, 100, 0) on the
empty book the Level at 100 exists with total 0 and both getSnapshot and
getBBO report it with total quantity 0. -/
theorem c10_zero_quantity_accepted (s : OrderBook) (b : Bool) (p : Price)
    (hT : ((findLevel (tableOf s b) p).getD ⟨0, []⟩).total_quantity < W) :
    (newOrder s b p 0).1 = s.next_order_id ∧
    lookupOrder (newOrder s b p 0).2 s.next_order_id = some ⟨b, p, 0⟩ ∧
    findLevel (tableOf (newOrder s b p 0).2 b) p =
      some ⟨((findLevel (tableOf s b) p).getD ⟨0, []⟩).total_quantity,
            ((findLevel (tableOf s b) p).getD ⟨0, []⟩).orders ++ [s.next_order_id]⟩ ∧
    tableOf (newOrder s b p 0).2 (!b) = tableOf s (!b) ∧
    getSnapshot book100z 1 = ([⟨100, 0⟩], []) ∧
    getBBO book100z = (⟨100, 0⟩, ⟨0, 0⟩) := by
  refine ⟨rfl, ?_, ?_, ?_, by decide, by decide⟩
  · cases b <;>
      simp [newOrder, lookupOrder, findOrder_insertOrderSorted_self, w64]
  · cases b <;>
      (simp_all [newOrder, tableOf, add_order_internal, findLevel_insertLevel_self,
        w64, w64add]
       exact Nat.mod_eq_of_lt hT)
  · cases b <;> simp [newOrder, tableOf]

/-- C10 witness: newOrder(Buy, 100, 0) on the empty book. -/
theorem c10_zero_quantity_accepted_w :
    (((findLevel (tableOf emptyBook true) 100).getD ⟨0, []⟩).total_quantity < W) ∧
    ((newOrder emptyBook true 100 0).1 = emptyBook.next_order_id ∧
      lookupOrder (newOrder emptyBook true 100 0).2 emptyBook.next_order_id =
        some ⟨true, 100, 0⟩ ∧
      findLevel (tableOf (newOrder emptyBook true 100 0).2 true) 100 =
        some ⟨((findLevel (tableOf emptyBook true) 100).getD ⟨0, []⟩).total_quantity,
              ((findLevel (tableOf emptyBook true) 100).getD ⟨0, []⟩).orders ++
                [emptyBook.next_order_id]⟩ ∧
      tableOf (newOrder emptyBook true 100 0).2 (!true) = tableOf emptyBook (!true) ∧
      getSnapshot book100z 1 = ([⟨100, 0⟩], []) ∧
      getBBO book100z = (⟨100, 0⟩, ⟨0, 0⟩)) :=
  ⟨by decide, c10_zero_quantity_accepted emptyBook true 100 (by decide)⟩

/-- C4: a quantity-only amend (new price equal to the order's current
price) returns true, sets the order's quantity, leaves every member
sequence of both tables unchanged (so the order keeps its queue
position), adjusts the Level's total by exactly the signed delta
new − old, and leaves the opposite side's table identical. -/
theorem c4_quantity_only_amend (s : OrderBook) (id : OrderId) (o : Order)
    (L : Limit) (q : Nat) (ho : lookupOrder s id = some o)
    (hL : findLevel (tableOf s o.is_buy) o.price = some L)
    (h1 : o.quantity ≤ L.total_quantity) (h2 : L.total_quantity < W)
    (h3 : q < W) (h4 : L.total_quantity - o.quantity + q < W) :
    (amendOrder s id o.price q).1 = true ∧
    lookupOrder (amendOrder s id o.price q).2 id = some ⟨o.is_buy, o.price, q⟩ ∧
    findLevel (tableOf (amendOrder s id o.price q).2 o.is_buy) o.price =
      some ⟨L.total_quantity - o.quantity + q, L.orders⟩ ∧
    ((L.total_quantity - o.quantity + q : Int) =
      (L.total_quantity : Int) + ((q : Int) - (o.quantity : Int))) ∧
    (∀ p2 : Price,
      (findLevel (tableOf (amendOrder s id o.price q).2 o.is_buy) p2).map
          Limit.orders =
        (findLevel (tableOf s o.is_buy) p2).map Limit.orders) ∧
    tableOf (amendOrder s id o.price q).2 (!o.is_buy) = tableOf s (!o.is_buy) := by
  have hred : amendOrder s id o.price q =
      (true,
        if hb : o.is_buy then
          { s with
            orders := insertOrderSorted s.orders id { o with quantity := w64 q },
            bids := bumpTotal bidLT s.bids o.price (w64sub (w64 q) o.quantity) }
        else
          { s with
            orders := insertOrderSorted s.orders id { o with quantity := w64 q },
            asks := bumpTotal askLT s.asks o.price (w64sub (w64 q) o.quantity) }) := by
    simp only [amendOrder, ho]
    rw [if_neg (fun hc => hc rfl)]
    cases hbb : o.is_buy <;> simp [hbb]
  have htot : w64add L.total_quantity (w64sub (w64 q) o.quantity) =
      L.total_quantity - o.quantity + q := w64add_w64sub_exact _ _ _ h1 h2 h3 h4
  refine ⟨?_, ?_, ?_, by omega, ?_, ?_⟩
  · rw [hred]
  · rw [hred]
    cases hb : o.is_buy <;>
      simp_all [lookupOrder, findOrder_insertOrderSorted_self, w64_eq_of_lt h3]
  · rw [hred]
    cases hb : o.is_buy <;>
      simp_all [tableOf, bumpTotal, findLevel_insertLevel_self]
  · intro p2
    rw [hred]
    by_cases hp2 : p2 = o.price
    · subst hp2
      cases hb : o.is_buy <;>
        simp_all [tableOf, bumpTotal, findLevel_insertLevel_self]
    · cases hb : o.is_buy <;>
        simp_all [tableOf, bumpTotal, findLevel_insertLevel_ne _ _ _ _ _ hp2]
  · rw [hred]
    cases hb : o.is_buy <;> simp [tableOf, hb]

/-- C4 witness: amend order 1 (Buy, 10 @ 100, first in queue ahead of
order 2) to quantity 20 at the same price: total goes 15 → 25 and the
member sequence [1, 2] is untouched. -/
theorem c4_quantity_only_amend_w :
    (lookupOrder (newOrder (newOrder emptyBook true 100 10).2 true 100 5).2 1 =
        some ⟨true, 100, 10⟩ ∧
      findLevel
          (tableOf (newOrder (newOrder emptyBook true 100 10).2 true 100 5).2
            (Order.is_buy ⟨true, 100, 10⟩))
          (Order.price ⟨true, 100, 10⟩) = some ⟨15, [1, 2]⟩ ∧
      Order.quantity ⟨true, 100, 10⟩ ≤ (15 : Nat) ∧ (15 : Nat) < W ∧
      (20 : Nat) < W ∧ ((15 : Nat) - 10 + 20 < W)) ∧
    ((amendOrder (newOrder (newOrder emptyBook true 100 10).2 true 100 5).2 1
        (Order.price ⟨true, 100, 10⟩) 20).1 = true ∧
      lookupOrder (amendOrder (newOrder (newOrder emptyBook true 100 10).2 true 100 5).2 1
          (Order.price ⟨true, 100, 10⟩) 20).2 1 = some ⟨true, 100, 20⟩ ∧
      findLevel
          (tableOf (amendOrder (newOrder (newOrder emptyBook true 100 10).2 true 100 5).2 1
              (Order.price ⟨true, 100, 10⟩) 20).2 (Order.is_buy ⟨true, 100, 10⟩))
          (Order.price ⟨true, 100, 10⟩) = some ⟨25, [1, 2]⟩ ∧
      (findLevel
          (tableOf (amendOrder (newOrder (newOrder emptyBook true 100 10).2 true 100 5).2 1
              (Order.price ⟨true, 100, 10⟩) 20).2 (Order.is_buy ⟨true, 100, 10⟩))
          100).map Limit.orders =
        (findLevel
            (tableOf (newOrder (newOrder emptyBook true 100 10).2 true 100 5).2
              (Order.is_buy ⟨true, 100, 10⟩)) 100).map Limit.orders) := by
  have h := c4_quantity_only_amend
    (newOrder (newOrder emptyBook true 100 10).2 true 100 5).2 1
    ⟨true, 100, 10⟩ ⟨15, [1, 2]⟩ 20 (by decide) (by decide) (by decide)
    (by decide) (by decide) (by decide)
  exact ⟨⟨by decide, by decide, by decide, by decide, by decide, by decide⟩,
    h.1, h.2.1, h.2.2.1, h.2.2.2.2.1 100⟩

/-- C5: a price-changing amend is exactly cancel plus re-insert with the
id preserved: when the looked-up order's price differs from the new
price, amendOrder returns true and the resulting state equals the one
produced by cancelOrder followed by re-inserting an order with the same
id, the original side and the new price and quantity (at the back of the
new price's queue, with next_order_id untouched). -/
theorem c5_price_change_is_cancel_reinsert (s : OrderBook) (id : OrderId)
    (o : Order) (np : Price) (nq : Nat) (ho : lookupOrder s id = some o)
    (hp : o.price ≠ np) (hs : idsSorted s.orders) :
    amendOrder s id np nq = (true, cancelThenReinsertSameId s id np nq) := by
  have ho2 : findOrder s.orders id = some o := ho
  simp only [amendOrder, cancelThenReinsertSameId, cancelOrder, ho]
  rw [if_pos hp]
  cases hb : o.is_buy <;>
    simp_all [insertOrderSorted_eraseOrder s.orders id o _ hs ho2]

/-- C5 witness: two bids rest at 100 (ids 1 and 2); amending order 1 to
price 99 yields literally the cancel-then-reinsert-same-id state. -/
theorem c5_price_change_is_cancel_reinsert_w :
    (lookupOrder (newOrder (newOrder emptyBook true 100 10).2 true 100 5).2 1 =
        some ⟨true, 100, 10⟩ ∧
      Order.price ⟨true, 100, 10⟩ ≠ (99 : Price) ∧
      idsSorted (newOrder (newOrder emptyBook true 100 10).2 true 100 5).2.orders) ∧
    amendOrder (newOrder (newOrder emptyBook true 100 10).2 true 100 5).2 1 99 20 =
      (true,
        cancelThenReinsertSameId
          (newOrder (newOrder emptyBook true 100 10).2 true 100 5).2 1 99 20) :=
  ⟨⟨by decide, by decide, by decide⟩,
   c5_price_change_is_cancel_reinsert
     (newOrder (newOrder emptyBook true 100 10).2 true 100 5).2 1
     ⟨true, 100, 10⟩ 99 20 (by decide) (by decide) (by decide)⟩

end LOB
